import Mathlib

/-!
Verification development for the frame resolution cache of this repository.

The subject is the frame-fetcher state machine in src/lib/frame-fetcher.machine.ts
(an XState machine) together with the LRU+TTL cache it owns.  The definitions
below are a shallow embedding of that source:

* `Cache` with `Cache.get` / `Cache.set` embeds the third-party lru-cache map as
  configured by the machine context (options at the context factory: max 100,
  ttl 300000, and no dispose callback), following the documented behaviour of
  that library: `get` returns a fresh entry and moves it to most-recently-used,
  deletes a stale entry and reports a miss; `set` replaces an existing key or
  inserts at most-recently-used, evicting the least-recently-used entry when the
  map is full.  Entries are kept most-recent-first; each carries its insertion
  time.  Both operations also report how many entries they removed, and the
  system tracks how many removals triggered a release (dispose) call.
* `MState`, `Ctx`, `Act`, `step` and `run` embed the machine itself: its states
  (setup, idle, fetching, success, error, error_fatal with initial state idle),
  its context (cache, db handle, frameIndex, sceneId, data, error), the
  FETCH_FRAME / RESOLVE / REJECT events, and the invoked fetchFrame callback.
  The callback is embedded operationally: entering the fetching state runs its
  synchronous part (the cache lookup, resolving immediately on a hit, otherwise
  calling openDB and starting an asynchronous store read), and the asynchronous
  completions are delivered by explicit `completeOk` / `completeFail` actions.
  A completion carries the generation of the invocation that issued it; its
  sendBack is delivered only while that invocation is still the current one
  (XState stops an invoked callback when its state is exited, and a stopped
  callback's sendBack is dropped), while its cache mutation always happens,
  because the promise chain keeps running and mutates the shared cache object.
-/

namespace FrameFetcher

/-- A value that can sit in the cache or in the machine context: either the raw
stored frame data read from the keyed store, or the decoded bitmap produced
from those bytes by createImageBitmap. -/
inductive FrameVal where
  | file (bytes : Nat)
  | bitmap (bytes : Nat)
deriving DecidableEq, Repr

/-- Options of the lru-cache instance: maximum entry count, time-to-live in
milliseconds, and whether a dispose (resource release) callback is configured. -/
structure CacheOpts where
  max : Nat
  ttl : Nat
  hasDispose : Bool
deriving DecidableEq, Repr

/-- The lru-cache map: entries are (key, value, insertedAt), kept in recency
order with the most recently used entry first. -/
structure Cache where
  opts : CacheOpts
  entries : List (Nat × FrameVal × Nat)
deriving DecidableEq, Repr

/-- Look a key up in an entry list. -/
def lookupE : List (Nat × FrameVal × Nat) → Nat → Option (FrameVal × Nat)
  | [], _ => none
  | e :: es, k => if e.1 = k then some e.2 else lookupE es k

/-- Remove every entry with the given key from an entry list. -/
def removeE : List (Nat × FrameVal × Nat) → Nat → List (Nat × FrameVal × Nat)
  | [], _ => []
  | e :: es, k => if e.1 = k then removeE es k else e :: removeE es k

/-- An entry is stale when a ttl is configured and at least ttl milliseconds
have passed since it was inserted. -/
def staleB (opts : CacheOpts) (insertedAt now : Nat) : Bool :=
  decide (opts.ttl ≠ 0 ∧ insertedAt + opts.ttl ≤ now)

/-- lru-cache get: a miss leaves the map unchanged; a stale entry is deleted
and reported as a miss; a fresh entry is moved to most-recently-used and
returned.  The third component counts removed entries. -/
def Cache.get (c : Cache) (k now : Nat) : Option FrameVal × Cache × Nat :=
  match lookupE c.entries k with
  | none => (none, c, 0)
  | some (v, t) =>
    if staleB c.opts t now then
      (none, { c with entries := removeE c.entries k }, 1)
    else
      (some v, { c with entries := (k, v, t) :: removeE c.entries k }, 0)

/-- lru-cache set: an existing key is replaced (removing the old entry) and
moved to most-recently-used; a new key is inserted at most-recently-used,
evicting the least-recently-used entry when the map is already full.  The
second component counts removed entries. -/
def Cache.set (c : Cache) (k : Nat) (v : FrameVal) (now : Nat) : Cache × Nat :=
  match lookupE c.entries k with
  | some _ => ({ c with entries := (k, v, now) :: removeE c.entries k }, 1)
  | none =>
    if c.entries.length < c.opts.max then
      ({ c with entries := (k, v, now) :: c.entries }, 0)
    else
      ({ c with entries := (k, v, now) :: c.entries.dropLast }, 1)

/-- Number of release (dispose) calls issued for a batch of removed entries:
lru-cache calls the dispose callback once per removed entry when one is
configured, and never otherwise. -/
def relInc (opts : CacheOpts) (removedEntries : Nat) : Nat :=
  if opts.hasDispose then removedEntries else 0

/-- The states of frameFetcherMachine. -/
inductive MState where
  | setup
  | idle
  | fetching
  | success
  | error
  | error_fatal
deriving DecidableEq, Repr

/-- The machine context.  The db handle is reduced to whether it is non-null,
and an Error object is reduced to its name string (the only field the machine
inspects). -/
structure Ctx where
  cache : Cache
  dbOpen : Bool
  frameIndex : Option Nat
  sceneId : String
  data : Option FrameVal
  error : Option String
deriving DecidableEq, Repr

/-- An in-flight store read issued by the fetchFrame callback: the generation
of the invocation that issued it and the frame index it was issued for. -/
structure Fetch where
  gen : Nat
  idx : Nat
deriving DecidableEq, Repr

/-- The whole system: machine state and context, the in-flight store reads,
the generation of the current fetchFrame invocation, the number of openDB
calls performed, the number of cache entries removed, the number of release
(dispose) calls performed, and the current time in milliseconds. -/
structure Sys where
  st : MState
  ctx : Ctx
  inflight : List Fetch
  curGen : Nat
  openCount : Nat
  removed : Nat
  released : Nat
  now : Nat
deriving DecidableEq, Repr

/-- External stimuli: a FETCH_FRAME request from the UI, completion of an
in-flight store read (bytes retrieved and decoded, or the promise chain
rejecting with an error of the given name), and the passage of time. -/
inductive Act where
  | req (k : Nat)
  | completeOk (gen bytes : Nat)
  | completeFail (gen : Nat) (name : String)
  | tick (d : Nat)
deriving DecidableEq, Repr

/-- The setframeIndex action of the machine: record the requested index and
clear data and error. -/
def setframeIndex (c : Ctx) (k : Nat) : Ctx :=
  { c with frameIndex := some k, data := none, error := none }

/-- Find the in-flight fetch issued by invocation generation g. -/
def findFetch : List Fetch → Nat → Option Fetch
  | [], _ => none
  | f :: fs, g => if f.gen = g then some f else findFetch fs g

/-- Remove the in-flight fetch issued by invocation generation g. -/
def removeFetch : List Fetch → Nat → List Fetch
  | [], _ => []
  | f :: fs, g => if f.gen = g then removeFetch fs g else f :: removeFetch fs g

/-- Entering the fetching state after a FETCH_FRAME for index k: run the
setframeIndex action, start a new fetchFrame invocation (new generation), and
run the callback's synchronous part.  On a cache hit the callback sends
RESOLVE with the cached value at once, so the machine moves straight to
success with that value as data; on a miss the callback calls openDB and
issues an asynchronous store read for the requested index. -/
def enterFetch (s : Sys) (k : Nat) : Sys :=
  let ctx1 := setframeIndex s.ctx k
  let g := s.curGen + 1
  let res := ctx1.cache.get k s.now
  match res.1 with
  | some v =>
    { s with st := .success, curGen := g,
             ctx := { ctx1 with cache := res.2.1, data := some v },
             removed := s.removed + res.2.2,
             released := s.released + relInc s.ctx.cache.opts res.2.2 }
  | none =>
    { s with st := .fetching, curGen := g,
             ctx := { ctx1 with cache := res.2.1 },
             inflight := s.inflight ++ [⟨g, k⟩],
             openCount := s.openCount + 1,
             removed := s.removed + res.2.2,
             released := s.released + relInc s.ctx.cache.opts res.2.2 }

/-- One step of the system.

FETCH_FRAME: from idle, success or error the machine transitions to fetching
(running setframeIndex and starting the invocation); within fetching it is an
internal transition that only runs setframeIndex and keeps the running
invocation; setup does not handle the event and error_fatal is a final state,
so in both the event is dropped.

completeOk: the store read of generation g finished and createImageBitmap
succeeded on the retrieved data.  The callback stores the raw retrieved data
in the cache under the index the fetch was issued for, then sends RESOLVE with
the decoded bitmap; the RESOLVE is delivered only if the machine is still in
fetching with g the current invocation, in which case it transitions to
success and assigns data.

completeFail: the promise chain of generation g rejected.  An AbortError is
swallowed (no sendBack); any other error is sent as REJECT, and if delivered
it transitions the machine to error_fatal, assigning the error. -/
def step (s : Sys) : Act → Sys
  | .tick d => { s with now := s.now + d }
  | .req k =>
    match s.st with
    | .idle => enterFetch s k
    | .success => enterFetch s k
    | .error => enterFetch s k
    | .fetching => { s with ctx := setframeIndex s.ctx k }
    | .setup => s
    | .error_fatal => s
  | .completeOk g b =>
    match findFetch s.inflight g with
    | none => s
    | some f =>
      let cr := s.ctx.cache.set f.idx (.file b) s.now
      let s1 : Sys :=
        { s with ctx := { s.ctx with cache := cr.1 },
                 inflight := removeFetch s.inflight g,
                 removed := s.removed + cr.2,
                 released := s.released + relInc s.ctx.cache.opts cr.2 }
      if s.st = .fetching ∧ g = s.curGen then
        { s1 with st := .success, ctx := { s1.ctx with data := some (.bitmap b) } }
      else s1
  | .completeFail g name =>
    match findFetch s.inflight g with
    | none => s
    | some _ =>
      let s1 : Sys := { s with inflight := removeFetch s.inflight g }
      if name = "AbortError" then s1
      else if s.st = .fetching ∧ g = s.curGen then
        { s1 with st := .error_fatal, ctx := { s1.ctx with error := some name } }
      else s1

/-- The machine's cache options, from the context factory: max 100 entries,
ttl 1000 * 60 * 5 milliseconds, and no dispose callback configured. -/
def machineCacheOpts : CacheOpts :=
  { max := 100, ttl := 300000, hasDispose := false }

/-- The initial context built by the context factory. -/
def initCtx (sceneId : String) : Ctx :=
  { cache := { opts := machineCacheOpts, entries := [] },
    dbOpen := false, frameIndex := none, sceneId := sceneId,
    data := none, error := none }

/-- The initial system: the machine starts in idle (its declared initial
state), with no in-flight fetch and all counters zero. -/
def initSys (sceneId : String) : Sys :=
  { st := .idle, ctx := initCtx sceneId, inflight := [], curGen := 0,
    openCount := 0, removed := 0, released := 0, now := 0 }

/-- Run the system from its initial state through a list of stimuli. -/
def run (sceneId : String) (acts : List Act) : Sys :=
  acts.foldl step (initSys sceneId)

/-! ### Entry-list lemmas -/

theorem length_removeE_le (l : List (Nat × FrameVal × Nat)) (k : Nat) :
    (removeE l k).length ≤ l.length := by
  induction l with
  | nil => simp [removeE]
  | cons e es ih =>
    rw [removeE]
    split
    · exact Nat.le_trans ih (Nat.le_succ _)
    · simpa using ih

theorem length_removeE_lt (l : List (Nat × FrameVal × Nat)) (k : Nat)
    (p : FrameVal × Nat) (h : lookupE l k = some p) :
    (removeE l k).length < l.length := by
  induction l with
  | nil => simp [lookupE] at h
  | cons e es ih =>
    rw [removeE]
    rw [lookupE] at h
    split
    · exact Nat.lt_succ_of_le (length_removeE_le es k)
    · rename_i he
      rw [if_neg he] at h
      simpa using ih h

theorem lookupE_removeE (l : List (Nat × FrameVal × Nat)) (k : Nat) :
    lookupE (removeE l k) k = none := by
  induction l with
  | nil => simp [removeE, lookupE]
  | cons e es ih =>
    rw [removeE]
    split
    · exact ih
    · rename_i he
      rw [lookupE, if_neg he]
      exact ih

/-! ### Cache operation lemmas -/

theorem Cache.get_opts (c : Cache) (k now : Nat) :
    ((c.get k now).2.1).opts = c.opts := by
  rw [Cache.get]
  rcases h : lookupE c.entries k with _ | ⟨v, t⟩
  · rfl
  · dsimp only
    split <;> rfl

theorem Cache.get_length_le (c : Cache) (k now : Nat) :
    ((c.get k now).2.1).entries.length ≤ c.entries.length := by
  rw [Cache.get]
  rcases h : lookupE c.entries k with _ | ⟨v, t⟩
  · exact Nat.le_refl _
  · dsimp only
    split
    · exact length_removeE_le c.entries k
    · simpa using length_removeE_lt c.entries k _ h

theorem Cache.set_opts (c : Cache) (k : Nat) (v : FrameVal) (now : Nat) :
    ((c.set k v now).1).opts = c.opts := by
  rw [Cache.set]
  rcases h : lookupE c.entries k with _ | p
  · dsimp only
    split <;> rfl
  · rfl

theorem Cache.set_length_le (c : Cache) (k : Nat) (v : FrameVal) (now : Nat)
    (hle : c.entries.length ≤ c.opts.max) (hpos : 0 < c.opts.max) :
    ((c.set k v now).1).entries.length ≤ c.opts.max := by
  rw [Cache.set]
  rcases h : lookupE c.entries k with _ | p
  · dsimp only
    split
    · rename_i hlt
      simpa using hlt
    · rename_i hlt
      have hge : c.opts.max ≤ c.entries.length := Nat.le_of_not_lt hlt
      have hq : c.entries.length = c.opts.max := Nat.le_antisymm hle hge
      have hpos2 : 0 < c.entries.length := hq ▸ hpos
      simp only [List.length_cons, List.length_dropLast]
      omega
  · dsimp only
    have := length_removeE_lt c.entries k p h
    simp only [List.length_cons]
    omega

theorem Cache.lookupE_set_self (c : Cache) (k : Nat) (v : FrameVal) (now : Nat) :
    lookupE ((c.set k v now).1).entries k = some (v, now) := by
  rw [Cache.set]
  rcases h : lookupE c.entries k with _ | p
  · dsimp only
    split <;> simp [lookupE]
  · simp [lookupE]

/-! ### Characterizations of entering the fetching state -/

theorem enterFetch_hit (s : Sys) (k : Nat) (v : FrameVal)
    (h : (s.ctx.cache.get k s.now).1 = some v) :
    enterFetch s k =
      { s with
          st := .success
          curGen := s.curGen + 1
          ctx := { s.ctx with
                     frameIndex := some k
                     error := none
                     cache := (s.ctx.cache.get k s.now).2.1
                     data := some v }
          removed := s.removed + (s.ctx.cache.get k s.now).2.2
          released := s.released
            + relInc s.ctx.cache.opts (s.ctx.cache.get k s.now).2.2 } := by
  unfold enterFetch
  dsimp only [setframeIndex]
  rw [h]

theorem enterFetch_miss (s : Sys) (k : Nat)
    (h : (s.ctx.cache.get k s.now).1 = none) :
    enterFetch s k =
      { s with
          st := .fetching
          curGen := s.curGen + 1
          ctx := { s.ctx with
                     frameIndex := some k
                     data := none
                     error := none
                     cache := (s.ctx.cache.get k s.now).2.1 }
          inflight := s.inflight ++ [⟨s.curGen + 1, k⟩]
          openCount := s.openCount + 1
          removed := s.removed + (s.ctx.cache.get k s.now).2.2
          released := s.released
            + relInc s.ctx.cache.opts (s.ctx.cache.get k s.now).2.2 } := by
  unfold enterFetch
  dsimp only [setframeIndex]
  rw [h]

/-! ### Reachability invariant -/

/-- Facts holding in every reachable system state: the cache keeps the options
it was created with, its size stays within 100 entries, no release call has
ever been performed (no dispose callback is configured), and the setup state
is never visited (the declared initial state is idle). -/
def Inv (s : Sys) : Prop :=
  s.ctx.cache.opts = machineCacheOpts ∧
  s.ctx.cache.entries.length ≤ 100 ∧
  s.released = 0 ∧
  ¬ s.st = MState.setup

theorem relInc_machine (r : Nat) : relInc machineCacheOpts r = 0 := by
  simp [relInc, machineCacheOpts]

theorem enterFetch_inv (s : Sys) (k : Nat) (h : Inv s) : Inv (enterFetch s k) := by
  obtain ⟨hopts, hlen, hrel, hst⟩ := h
  rcases hget : (s.ctx.cache.get k s.now).1 with _ | v
  · rw [enterFetch_miss s k hget]
    refine ⟨?_, ?_, ?_, ?_⟩
    · simpa [Cache.get_opts] using hopts
    · exact Nat.le_trans (Cache.get_length_le s.ctx.cache k s.now) hlen
    · simp [hopts, relInc_machine, hrel]
    · intro hc
      exact MState.noConfusion hc
  · rw [enterFetch_hit s k v hget]
    refine ⟨?_, ?_, ?_, ?_⟩
    · simpa [Cache.get_opts] using hopts
    · exact Nat.le_trans (Cache.get_length_le s.ctx.cache k s.now) hlen
    · simp [hopts, relInc_machine, hrel]
    · intro hc
      exact MState.noConfusion hc

theorem step_inv (s : Sys) (a : Act) (h : Inv s) : Inv (step s a) := by
  obtain ⟨hopts, hlen, hrel, hst⟩ := h
  cases a with
  | tick d => exact ⟨hopts, hlen, hrel, hst⟩
  | req k =>
    cases hs : s.st with
    | setup => simp only [step, hs]; exact ⟨hopts, hlen, hrel, hst⟩
    | error_fatal =>
      simp only [step, hs]; exact ⟨hopts, hlen, hrel, hst⟩
    | fetching =>
      simp only [step, hs]
      exact ⟨hopts, hlen, hrel, by rw [hs] at hst; exact hst⟩
    | idle => simp only [step, hs]; exact enterFetch_inv s k ⟨hopts, hlen, hrel, hst⟩
    | success => simp only [step, hs]; exact enterFetch_inv s k ⟨hopts, hlen, hrel, hst⟩
    | error => simp only [step, hs]; exact enterFetch_inv s k ⟨hopts, hlen, hrel, hst⟩
  | completeOk g b =>
    rcases hf : findFetch s.inflight g with _ | f
    · simp only [step, hf]; exact ⟨hopts, hlen, hrel, hst⟩
    · simp only [step, hf]
      have hle : s.ctx.cache.entries.length ≤ s.ctx.cache.opts.max := by
        rw [hopts]; exact hlen
      have hpos : 0 < s.ctx.cache.opts.max := by rw [hopts]; decide
      have hopts2 :
          ((s.ctx.cache.set f.idx (.file b) s.now).1).opts = machineCacheOpts := by
        rw [Cache.set_opts]; exact hopts
      have hlen2 :
          ((s.ctx.cache.set f.idx (.file b) s.now).1).entries.length ≤ 100 := by
        have := Cache.set_length_le s.ctx.cache f.idx (.file b) s.now hle hpos
        rw [hopts] at this; exact this
      split
      · exact ⟨hopts2, hlen2, by simp [hopts, relInc_machine, hrel],
          fun hc => MState.noConfusion hc⟩
      · exact ⟨hopts2, hlen2, by simp [hopts, relInc_machine, hrel], hst⟩
  | completeFail g name =>
    rcases hf : findFetch s.inflight g with _ | f
    · simp only [step, hf]; exact ⟨hopts, hlen, hrel, hst⟩
    · simp only [step, hf]
      split
      · exact ⟨hopts, hlen, hrel, hst⟩
      · split
        · exact ⟨hopts, hlen, hrel, fun hc => MState.noConfusion hc⟩
        · exact ⟨hopts, hlen, hrel, hst⟩

theorem foldl_inv (P : Sys → Prop) (hstep : ∀ s a, P s → P (step s a)) :
    ∀ (acts : List Act) (s : Sys), P s → P (acts.foldl step s) := by
  intro acts
  induction acts with
  | nil => intro s hs; exact hs
  | cons a as ih => intro s hs; exact ih _ (hstep s a hs)

theorem initSys_inv (sid : String) : Inv (initSys sid) :=
  ⟨rfl, Nat.zero_le _, rfl, fun hc => MState.noConfusion hc⟩

theorem run_inv (sid : String) (acts : List Act) : Inv (run sid acts) :=
  foldl_inv Inv step_inv acts (initSys sid) (initSys_inv sid)

theorem enterFetch_frameIndex (s : Sys) (k : Nat) :
    (enterFetch s k).ctx.frameIndex = some k := by
  rcases hget : (s.ctx.cache.get k s.now).1 with _ | v
  · rw [enterFetch_miss s k hget]
  · rw [enterFetch_hit s k v hget]

/-! ### Claim C1 -/

/-- Claim C1 (counterexample): the machine does not discard a superseded
fetch's result.  After FETCH_FRAME(5) and then FETCH_FRAME(7), no fetch for 7
is ever started (the in-flight list still holds only the fetch for 5, because
the FETCH_FRAME transition inside fetching is internal and does not restart
the invocation), and when the fetch for 5 completes the machine transitions
to success, stores the bitmap decoded from frame 5 as its data, and writes
frame 5 into the cache — a state transition and a cache mutation, where the
claim requires a silent discard. -/
theorem latest_request_wins_cex :
    (run "s" [.req 5, .req 7]).st = MState.fetching ∧
    (run "s" [.req 5, .req 7]).inflight = [⟨1, 5⟩] ∧
    (run "s" [.req 5, .req 7, .completeOk 1 3]).st = MState.success ∧
    (run "s" [.req 5, .req 7, .completeOk 1 3]).ctx.frameIndex = some 7 ∧
    (run "s" [.req 5, .req 7, .completeOk 1 3]).ctx.data = some (FrameVal.bitmap 3) ∧
    lookupE (run "s" [.req 5, .req 7, .completeOk 1 3]).ctx.cache.entries 5
      = some (FrameVal.file 3, 0) := by decide

/-- Claim C1 (amended): a request for a new index K arriving while a fetch for
K_old is in flight only re-runs setframeIndex (recording K and clearing
data/error); it neither starts a fetch for K nor invalidates the in-flight
fetch.  When the fetch for K_old then completes successfully, the machine
transitions to success, takes the bitmap decoded from K_old's bytes as its
data, and caches K_old's raw bytes — so once requests stop, the machine
converges to success with requestedIndex K but with the superseded fetch's
result as data. -/
theorem latest_request_superseded_amended (s : Sys) (k g i b : Nat)
    (hst : s.st = MState.fetching)
    (hin : s.inflight = [⟨g, i⟩])
    (hg : s.curGen = g)
    (hk : ¬ k = i) :
    (step s (.req k)).st = MState.fetching ∧
    (step s (.req k)).inflight = s.inflight ∧
    (step s (.req k)).openCount = s.openCount ∧
    (step s (.req k)).ctx.frameIndex = some k ∧
    (step (step s (.req k)) (.completeOk g b)).st = MState.success ∧
    (step (step s (.req k)) (.completeOk g b)).ctx.data = some (FrameVal.bitmap b) ∧
    (step (step s (.req k)) (.completeOk g b)).ctx.frameIndex = some k ∧
    lookupE (step (step s (.req k)) (.completeOk g b)).ctx.cache.entries i
      = some (FrameVal.file b, s.now) := by
  obtain ⟨st, ctx, infl, cg, oc, rm, rl, nw⟩ := s
  dsimp only at hst hin hg ⊢
  subst hst hin hg
  refine ⟨?_, ?_, ?_, ?_, ?_, ?_, ?_, ?_⟩ <;>
    simp [step, findFetch, setframeIndex, Cache.lookupE_set_self]

/-- Claim C1 (witness): the amended statement at the concrete scenario
request(5) then request(7) with the fetch for 5 completing afterwards. -/
theorem latest_request_superseded_amended_witness :
    (step (run "s" [.req 5]) (.req 7)).st = MState.fetching ∧
    (step (run "s" [.req 5]) (.req 7)).inflight = (run "s" [.req 5]).inflight ∧
    (step (run "s" [.req 5]) (.req 7)).openCount = (run "s" [.req 5]).openCount ∧
    (step (run "s" [.req 5]) (.req 7)).ctx.frameIndex = some 7 ∧
    (step (step (run "s" [.req 5]) (.req 7)) (.completeOk 1 3)).st = MState.success ∧
    (step (step (run "s" [.req 5]) (.req 7)) (.completeOk 1 3)).ctx.data
      = some (FrameVal.bitmap 3) ∧
    (step (step (run "s" [.req 5]) (.req 7)) (.completeOk 1 3)).ctx.frameIndex
      = some 7 ∧
    lookupE (step (step (run "s" [.req 5]) (.req 7)) (.completeOk 1 3)).ctx.cache.entries 5
      = some (FrameVal.file 3, (run "s" [.req 5]).now) :=
  latest_request_superseded_amended (run "s" [.req 5]) 7 1 5 3
    (by decide) (by decide) (by decide) (by decide)

/-! ### Claim C2 -/

/-- Claim C2 (counterexample): a fetch failure is fatal, not recoverable.
After request(9) whose store read rejects, the machine sits in error_fatal (a
final state); a further request(9) is dropped: no new fetch is started, openDB
is not called again, and the machine never retries. -/
theorem failure_nonfatal_cex :
    (run "s" [.req 9, .completeFail 1 "Error", .req 9]).st = MState.error_fatal ∧
    (run "s" [.req 9, .completeFail 1 "Error", .req 9]).openCount = 1 ∧
    (run "s" [.req 9, .completeFail 1 "Error", .req 9]).inflight = [] := by decide

/-- Claim C2 (amended): every fetch failure whose error is not an AbortError
is fatal: the REJECT transitions the machine to error_fatal, a final state
that records the error and in which every subsequent request is ignored (the
whole system is left unchanged by FETCH_FRAME). -/
theorem failure_fatal_amended (s : Sys) (g i k : Nat) (name : String)
    (hf : findFetch s.inflight g = some ⟨g, i⟩)
    (hst : s.st = MState.fetching)
    (hg : s.curGen = g)
    (hname : ¬ name = "AbortError") :
    (step s (.completeFail g name)).st = MState.error_fatal ∧
    (step s (.completeFail g name)).ctx.error = some name ∧
    step (step s (.completeFail g name)) (.req k) = step s (.completeFail g name) := by
  obtain ⟨st, ctx, infl, cg, oc, rm, rl, nw⟩ := s
  dsimp only at hf hst hg
  subst hst hg
  refine ⟨?_, ?_, ?_⟩ <;> simp [step, hf, hname]

/-- Claim C2 (witness): the amended statement at the concrete scenario of
request(9) failing with a NotFoundError and request(9) being retried. -/
theorem failure_fatal_amended_witness :
    (step (run "s" [.req 9]) (.completeFail 1 "NotFoundError")).st
      = MState.error_fatal ∧
    (step (run "s" [.req 9]) (.completeFail 1 "NotFoundError")).ctx.error
      = some "NotFoundError" ∧
    step (step (run "s" [.req 9]) (.completeFail 1 "NotFoundError")) (.req 9)
      = step (run "s" [.req 9]) (.completeFail 1 "NotFoundError") :=
  failure_fatal_amended (run "s" [.req 9]) 1 9 9 "NotFoundError"
    (by decide) (by decide) (by decide) (by decide)

/-! ### Claim C3 -/

/-- Claim C3: on a successful miss fetch the callback stores the raw
retrieved value (frameData) in the cache while sending the decoded bitmap in
RESOLVE.  At the failing input request(5) with bytes 3 retrieved and decoded,
the resolver data is the decoded bitmap but the cache entry for index 5 is the
raw file value, which differs from the bitmap — so a later cache hit yields
the raw value rather than the decoded bitmap the claim requires. -/
theorem cache_stores_raw_value :
    (run "s" [.req 5, .completeOk 1 3]).st = MState.success ∧
    (run "s" [.req 5, .completeOk 1 3]).ctx.data = some (FrameVal.bitmap 3) ∧
    lookupE (run "s" [.req 5, .completeOk 1 3]).ctx.cache.entries 5
      = some (FrameVal.file 3, 0) ∧
    ¬ FrameVal.file 3 = FrameVal.bitmap 3 := by decide

/-! ### Claim C4 -/

/-- Claim C4 (counterexample): an entry is removed (here by TTL expiry found
during a get) with no release call at all: after caching frame 5, letting the
ttl elapse and requesting frame 5 again, one entry has been removed but zero
release calls were performed, where the claim requires exactly one. -/
theorem resource_release_cex :
    (run "s" [.req 5, .completeOk 1 3, .tick 300001, .req 5]).removed = 1 ∧
    (run "s" [.req 5, .completeOk 1 3, .tick 300001, .req 5]).released = 0 := by decide

/-- Claim C4 (amended): the cache never releases bitmaps.  The lru-cache is
created without a dispose callback, so whatever sequence of requests,
completions and delays occurs, the number of release (close) calls stays
zero regardless of how many entries capacity eviction or TTL expiry remove. -/
theorem no_release_amended (sid : String) (acts : List Act) :
    (run sid acts).released = 0 :=
  (run_inv sid acts).2.2.1

/-! ### Claim C5 -/

/-- Claim C5: the store is opened once per cache-miss fetch, not once per
resolver instance.  The machine's initial state is idle, so the setup state
that would open the database once is never entered; instead the fetchFrame
callback calls openDB on every miss: two cache-miss requests perform two
openDB calls. -/
theorem open_per_miss :
    (run "s" [.req 0]).openCount = 1 ∧
    (run "s" [.req 0, .completeOk 1 5, .req 1]).openCount = 2 := by decide

/-! ### Claim C6 -/

/-- Claim C6 (counterexample): in the reachable state error_fatal the
requested index is not updated: after request(1) fails, a request(2) is
dropped and frameIndex still holds 1, not the most recent request 2. -/
theorem requested_index_cex :
    (run "s" [.req 1, .completeFail 1 "Error", .req 2]).ctx.frameIndex = some 1 ∧
    ¬ (run "s" [.req 1, .completeFail 1 "Error", .req 2]).ctx.frameIndex = some 2 := by
  decide

/-- Claim C6 (amended): in every reachable state other than the final state
error_fatal, a request(K) synchronously records K as the requested index;
in error_fatal the event is ignored and frameIndex keeps its previous value. -/
theorem requested_index_amended (sid : String) (acts : List Act) (k : Nat)
    (h : ¬ (run sid acts).st = MState.error_fatal) :
    (step (run sid acts) (.req k)).ctx.frameIndex = some k := by
  obtain ⟨-, -, -, hsetup⟩ := run_inv sid acts
  cases hs : (run sid acts).st with
  | setup => exact absurd hs hsetup
  | error_fatal => exact absurd hs h
  | fetching => simp [step, hs, setframeIndex]
  | idle => simp only [step, hs]; exact enterFetch_frameIndex _ k
  | success => simp only [step, hs]; exact enterFetch_frameIndex _ k
  | error => simp only [step, hs]; exact enterFetch_frameIndex _ k

/-- Claim C6 (witness): the amended statement at a concrete input. -/
theorem requested_index_amended_witness :
    ¬ (run "s" []).st = MState.error_fatal ∧
    (step (run "s" []) (.req 3)).ctx.frameIndex = some 3 :=
  ⟨by decide, requested_index_amended "s" [] 3 (by decide)⟩

/-! ### Claim C7 -/

/-- Claim C7 (counterexample): after frame 5 has been resolved and cached, a
new request(5) does hit the cache and bypasses the store (openCount stays 1)
and transitions synchronously to success — but the value it resolves with is
the raw file value the miss path cached, not the decoded bitmap, so the
claim's conclusion Resolved(5, bitmap) fails. -/
theorem cache_hit_bitmap_cex :
    (run "s" [.req 5, .completeOk 1 3, .req 5]).st = MState.success ∧
    (run "s" [.req 5, .completeOk 1 3, .req 5]).openCount = 1 ∧
    (run "s" [.req 5, .completeOk 1 3, .req 5]).ctx.data = some (FrameVal.file 3) ∧
    ¬ (run "s" [.req 5, .completeOk 1 3, .req 5]).ctx.data
        = some (FrameVal.bitmap 3) := by decide

/-- Claim C7 (amended): from idle, success or error, a request(K) whose index
has a fresh cache entry holding value v resolves synchronously from the cache:
the machine moves directly to success with data v, performs no openDB call and
starts no store read, and the get moves the entry to most-recently-used.  The
cached value v is whatever the miss path stored — the raw frame data, not the
decoded bitmap. -/
theorem cache_hit_synchronous_amended (s : Sys) (k t : Nat) (v : FrameVal)
    (hst : s.st = MState.idle ∨ s.st = MState.success ∨ s.st = MState.error)
    (hl : lookupE s.ctx.cache.entries k = some (v, t))
    (hfresh : staleB s.ctx.cache.opts t s.now = false) :
    (step s (.req k)).st = MState.success ∧
    (step s (.req k)).ctx.data = some v ∧
    (step s (.req k)).openCount = s.openCount ∧
    (step s (.req k)).inflight = s.inflight ∧
    (step s (.req k)).ctx.cache.entries
      = (k, v, t) :: removeE s.ctx.cache.entries k := by
  have hget : s.ctx.cache.get k s.now =
      (some v,
       { s.ctx.cache with entries := (k, v, t) :: removeE s.ctx.cache.entries k },
       0) := by
    rw [Cache.get, hl]
    dsimp only
    rw [if_neg (by simp [hfresh])]
  have hstep : step s (.req k) = enterFetch s k := by
    rcases hst with h | h | h <;> simp only [step, h]
  have h1 : (s.ctx.cache.get k s.now).1 = some v := by rw [hget]
  rw [hstep, enterFetch_hit s k v h1, hget]
  exact ⟨rfl, rfl, rfl, rfl, rfl⟩

/-- Claim C7 (witness): the amended statement after frame 5 was resolved and
cached by a miss fetch with bytes 3. -/
theorem cache_hit_synchronous_amended_witness :
    (step (run "s" [.req 5, .completeOk 1 3]) (.req 5)).st = MState.success ∧
    (step (run "s" [.req 5, .completeOk 1 3]) (.req 5)).ctx.data
      = some (FrameVal.file 3) ∧
    (step (run "s" [.req 5, .completeOk 1 3]) (.req 5)).openCount
      = (run "s" [.req 5, .completeOk 1 3]).openCount ∧
    (step (run "s" [.req 5, .completeOk 1 3]) (.req 5)).inflight
      = (run "s" [.req 5, .completeOk 1 3]).inflight ∧
    (step (run "s" [.req 5, .completeOk 1 3]) (.req 5)).ctx.cache.entries
      = (5, FrameVal.file 3, 0)
          :: removeE (run "s" [.req 5, .completeOk 1 3]).ctx.cache.entries 5 :=
  cache_hit_synchronous_amended (run "s" [.req 5, .completeOk 1 3]) 5 0
    (FrameVal.file 3) (by decide) (by decide) (by decide)

/-! ### Claim C8 -/

/-- Claim C8: the cache respects its capacity bound of 100 (the configured
maximum) on every run of the system, and when an insert hits a full cache the
least-recently-used entry (the last in recency order) is the one evicted. -/
theorem cache_bound_holds :
    (∀ (sid : String) (acts : List Act),
       (run sid acts).ctx.cache.entries.length ≤ 100) ∧
    (∀ (c : Cache) (k now : Nat) (v : FrameVal),
       lookupE c.entries k = none → c.opts.max ≤ c.entries.length →
       ((c.set k v now).1).entries = (k, v, now) :: c.entries.dropLast) := by
  constructor
  · intro sid acts
    exact (run_inv sid acts).2.1
  · intro c k now v hnone hfull
    rw [Cache.set, hnone]
    dsimp only
    rw [if_neg (Nat.not_lt.mpr hfull)]

/-- Claim C8 (witness): the bound at a concrete run, and the LRU eviction at a
concrete full cache of capacity 1. -/
theorem cache_bound_holds_witness :
    (run "s" [.req 1]).ctx.cache.entries.length ≤ 100 ∧
    ((({ opts := { max := 1, ttl := 0, hasDispose := false },
         entries := [(0, FrameVal.file 0, 0)] } : Cache).set
        1 (FrameVal.file 7) 9).1).entries = [(1, FrameVal.file 7, 9)] :=
  ⟨cache_bound_holds.1 "s" [.req 1],
   by simpa using
     cache_bound_holds.2
       { opts := { max := 1, ttl := 0, hasDispose := false },
         entries := [(0, FrameVal.file 0, 0)] }
       1 9 (FrameVal.file 7) (by decide) (by decide)⟩

/-! ### Claim C9 -/

/-- Claim C9: with the machine's cache options (ttl 300000 ms), a get for a
key whose entry was inserted at time t, performed once more than 300000 ms
have elapsed, misses, and the expired entry is deleted from the cache by that
get. -/
theorem ttl_expiry_holds (c : Cache) (k t now : Nat) (v : FrameVal)
    (hopts : c.opts = machineCacheOpts)
    (hl : lookupE c.entries k = some (v, t))
    (hnow : t + 300000 < now) :
    (c.get k now).1 = none ∧
    ((c.get k now).2.1).entries = removeE c.entries k ∧
    lookupE ((c.get k now).2.1).entries k = none := by
  have hstale : staleB c.opts t now = true := by
    rw [hopts]
    simp only [staleB, machineCacheOpts, decide_eq_true_eq]
    omega
  have hget : c.get k now = (none, { c with entries := removeE c.entries k }, 1) := by
    rw [Cache.get, hl]
    dsimp only
    rw [if_pos hstale]
  rw [hget]
  exact ⟨rfl, rfl, lookupE_removeE c.entries k⟩

/-- Claim C9 (witness): TTL expiry at a concrete cache holding frame 1
inserted at time 0, queried at time 300001. -/
theorem ttl_expiry_holds_witness :
    (({ opts := machineCacheOpts,
        entries := [(1, FrameVal.file 2, 0)] } : Cache).get 1 300001).1 = none ∧
    ((({ opts := machineCacheOpts,
         entries := [(1, FrameVal.file 2, 0)] } : Cache).get 1 300001).2.1).entries
      = removeE [(1, FrameVal.file 2, 0)] 1 ∧
    lookupE ((({ opts := machineCacheOpts,
                 entries := [(1, FrameVal.file 2, 0)] } : Cache).get
               1 300001).2.1).entries 1 = none :=
  ttl_expiry_holds
    { opts := machineCacheOpts, entries := [(1, FrameVal.file 2, 0)] }
    1 0 300001 (FrameVal.file 2) rfl (by decide) (by decide)

/-! ### Claim C10 -/

/-- Claim C10: when the promise chain of a store read rejects with an error
named AbortError, the callback returns without sending anything: whatever
state the system is in, the machine state, the whole context (so no error is
surfaced and no cache mutation happens), the openDB count and the removal
count are unchanged; only the in-flight read itself goes away.  In particular
a machine sitting in fetching stays in fetching. -/
theorem abort_error_swallowed (s : Sys) (g : Nat) :
    (step s (.completeFail g "AbortError")).st = s.st ∧
    (step s (.completeFail g "AbortError")).ctx = s.ctx ∧
    (step s (.completeFail g "AbortError")).openCount = s.openCount ∧
    (step s (.completeFail g "AbortError")).removed = s.removed := by
  rcases hf : findFetch s.inflight g with _ | f
  · simp [step, hf]
  · simp [step, hf]

end FrameFetcher
